import Mathlib

/-!
Shallow embedding of the document access and serialization layer of
`src/main.py` (a FastAPI gateway over a MongoDB-style document store),
together with proofs of the specification's claims about it.

Python values appearing in documents are modelled by the inductive `Value`;
MongoDB ObjectIds are modelled as natural numbers below `16 ^ 24`, whose
string form is the 24-character lowercase hex representation (as produced
by `str(ObjectId)` in `bson`).
-/

/-- The lowercase hex digit character for `n < 16` (as Python's `"%x"`). -/
def hexDigitChar (n : Nat) : Char :=
  if n < 10 then Char.ofNat (48 + n) else Char.ofNat (87 + n)

/-- Value of a hex digit character, accepting both cases (as `bytes.fromhex`
does when `bson` parses an ObjectId string); `none` on a non-hex char. -/
def hexCharVal (c : Char) : Option Nat :=
  if 48 ≤ c.toNat ∧ c.toNat ≤ 57 then some (c.toNat - 48)
  else if 97 ≤ c.toNat ∧ c.toNat ≤ 102 then some (c.toNat - 87)
  else if 65 ≤ c.toNat ∧ c.toNat ≤ 70 then some (c.toNat - 55)
  else none

def isHexChar (c : Char) : Bool :=
  (hexCharVal c).isSome

/-- Fixed-width base-16 digit list of `n` (most significant digit first). -/
def hexDigitsOfNat : Nat → Nat → List Char
  | 0, _ => []
  | w + 1, n => hexDigitsOfNat w (n / 16) ++ [hexDigitChar (n % 16)]

/-- Numeric value of a hex digit string (Horner evaluation). -/
def hexNatOfChars (cs : List Char) : Nat :=
  cs.foldl (fun a c => 16 * a + (hexCharVal c).getD 0) 0

/-- A BSON ObjectId: 12 bytes, i.e. a natural number below `16 ^ 24`. -/
abbrev ObjectId := Fin (16 ^ 24)

/-- `str(objectid)` in `bson`: the 24-character lowercase hex form. -/
def oidToString (o : ObjectId) : String :=
  ⟨hexDigitsOfNat 24 o.val⟩

/-- `ObjectId.is_valid` of `bson` on a string: exactly 24 hex characters. -/
def is_valid (s : String) : Bool :=
  s.length == 24 && s.data.all isHexChar

/-- `ObjectId(s)` of `bson` on a hex string: parse the 24 hex digits.
(The `% 16 ^ 24` is a no-op on every valid string.) -/
def oidOfString (s : String) : ObjectId :=
  ⟨hexNatOfChars s.data % 16 ^ 24, Nat.mod_lt _ (by norm_num)⟩

/-- A Python value as it appears in a document: an ObjectId, a string,
or another JSON-style scalar (represented by `intVal` for concreteness). -/
inductive Value where
  | oid (o : ObjectId)
  | str (s : String)
  | intVal (n : Int)
  deriving DecidableEq

/-- Python `str` on the values of the model (total; never raises here). -/
def pyStr : Value → String
  | .oid o => oidToString o
  | .str s => s
  | .intVal n => toString n

/-- `serialize_id` of `src/main.py`: `str(obj_id)`, the `except` branch being
unreachable because `str` is total on the modelled values. -/
def serialize_id (v : Value) : Value :=
  Value.str (pyStr v)

/-- `PyObjectId.validate` of `src/main.py`: pass ObjectId instances through,
parse valid strings, raise `ValueError` (modelled by `Except.error`) on
everything `ObjectId.is_valid` rejects. -/
def PyObjectId.validate (v : Value) : Except String Value :=
  match v with
  | .oid o => .ok (.oid o)
  | .str s =>
      if is_valid s then .ok (.oid (oidOfString s))
      else .error "Invalid ObjectId"
  | .intVal _ => .error "Invalid ObjectId"

lemma hexCharVal_hexDigitChar (m : Nat) (hm : m < 16) :
    hexCharVal (hexDigitChar m) = some m := by
  interval_cases m <;> decide

lemma hexDigitsOfNat_length (w n : Nat) : (hexDigitsOfNat w n).length = w := by
  induction w generalizing n with
  | zero => rfl
  | succ w ih => simp [hexDigitsOfNat, ih]

lemma hexDigitsOfNat_all_hex (w n : Nat) :
    (hexDigitsOfNat w n).all isHexChar = true := by
  induction w generalizing n with
  | zero => rfl
  | succ w ih =>
    simp only [hexDigitsOfNat, List.all_append, ih, Bool.true_and, List.all_cons,
      List.all_nil, Bool.and_true]
    simp [isHexChar, hexCharVal_hexDigitChar (n % 16) (Nat.mod_lt _ (by norm_num))]

lemma hexNatOfChars_append_digit (cs : List Char) (c : Char) :
    hexNatOfChars (cs ++ [c]) = 16 * hexNatOfChars cs + (hexCharVal c).getD 0 := by
  simp [hexNatOfChars, List.foldl_append]

lemma hexNatOfChars_hexDigitsOfNat (w n : Nat) (h : n < 16 ^ w) :
    hexNatOfChars (hexDigitsOfNat w n) = n := by
  induction w generalizing n with
  | zero =>
    have : n = 0 := by simpa using Nat.lt_one_iff.mp (by simpa using h)
    simp [this, hexDigitsOfNat, hexNatOfChars]
  | succ w ih =>
    have hdiv : n / 16 < 16 ^ w := by
      rw [Nat.div_lt_iff_lt_mul (by norm_num)]
      calc n < 16 ^ (w + 1) := h
        _ = 16 ^ w * 16 := by rw [pow_succ]
    rw [hexDigitsOfNat, hexNatOfChars_append_digit, ih (n / 16) hdiv,
      hexCharVal_hexDigitChar (n % 16) (Nat.mod_lt _ (by norm_num))]
    simp [Nat.div_add_mod]

lemma is_valid_oidToString (o : ObjectId) : is_valid (oidToString o) = true := by
  simp [is_valid, oidToString, String.length, hexDigitsOfNat_length,
    hexDigitsOfNat_all_hex]

lemma oidOfString_oidToString (o : ObjectId) : oidOfString (oidToString o) = o := by
  apply Fin.ext
  show hexNatOfChars (hexDigitsOfNat 24 o.val) % 16 ^ 24 = o.val
  rw [hexNatOfChars_hexDigitsOfNat 24 o.val o.isLt]
  exact Nat.mod_eq_of_lt o.isLt

/-- C1: decoding the encoding of any valid internal identifier returns the
same identifier: `PyObjectId.validate (serialize_id x) = x` for every
ObjectId `x`, so every external identifier string of an existing document
round-trips through the identifier codec. -/
theorem validate_serialize_id_roundtrip (o : ObjectId) :
    PyObjectId.validate (serialize_id (Value.oid o)) = Except.ok (Value.oid o) := by
  show PyObjectId.validate (Value.str (oidToString o)) = Except.ok (Value.oid o)
  simp [PyObjectId.validate, is_valid_oidToString, oidOfString_oidToString]

/-- C3: on every string rejected by `ObjectId.is_valid`, `PyObjectId.validate`
raises `ValueError` (modelled as `Except.error`) instead of returning an
identifier. -/
theorem validate_rejects_invalid_string (s : String) (h : is_valid s = false) :
    PyObjectId.validate (Value.str s) = Except.error "Invalid ObjectId" := by
  simp [PyObjectId.validate, h]

theorem validate_rejects_invalid_string_witness :
    is_valid "not-an-id" = false ∧
      PyObjectId.validate (Value.str "not-an-id") = Except.error "Invalid ObjectId" :=
  ⟨by decide, validate_rejects_invalid_string "not-an-id" (by decide)⟩

/-!
Documents. A MongoDB document / Python dict is modelled as a key-ordered
association list; `dictPop` and `dictSet` follow Python `dict.pop` /
`dict.__setitem__` semantics (an update keeps the key's position, a fresh
key is appended at the end).
-/

abbrev Doc := List (String × Value)

/-- `d.pop(k)`'s effect on the dict: drop the entry with key `k`. -/
def dictPop (k : String) (d : Doc) : Doc :=
  d.filter (fun p => !(p.1 == k))

/-- `d[k] = v` on a Python dict: update in place if the key exists,
append otherwise. -/
def dictSet (k : String) (v : Value) (d : Doc) : Doc :=
  if (d.lookup k).isSome then
    d.map (fun p => if p.1 == k then (k, v) else p)
  else d ++ [(k, v)]

/-- `serialize_doc` of `src/main.py`: falsy (empty) documents are returned
unchanged; otherwise a copy is taken, and when the copy has an `_id` entry it
is popped and `id` is set to its serialized form. -/
def serialize_doc (doc : Doc) : Doc :=
  if doc.isEmpty then doc
  else
    match doc.lookup "_id" with
    | some i => dictSet "id" (serialize_id i) (dictPop "_id" doc)
    | none => doc


lemma lookup_cons_if {β : Type} (k : String) (p : String × β) (d : List (String × β)) :
    (p :: d).lookup k = if k = p.1 then some p.2 else d.lookup k := by
  rcases p with ⟨a, b⟩
  by_cases h : k = a
  · have hb : (k == a) = true := beq_iff_eq.mpr h
    rw [List.lookup_cons, hb]
    simp [h]
  · have hb : (k == a) = false := beq_eq_false_iff_ne.mpr h
    rw [List.lookup_cons, hb]
    simp [h]

lemma lookup_dictPop_self (k : String) (d : Doc) :
    (dictPop k d).lookup k = none := by
  induction d with
  | nil => rfl
  | cons p rest ih =>
    by_cases hp : p.1 = k
    · have hb : (p.1 == k) = true := beq_iff_eq.mpr hp
      simpa [dictPop, List.filter_cons, hb] using ih
    · have hb : (p.1 == k) = false := beq_eq_false_iff_ne.mpr hp
      have hk : k ≠ p.1 := fun h => hp h.symm
      simp only [dictPop, List.filter_cons, hb, Bool.not_false, if_pos]
      rw [lookup_cons_if, if_neg hk]
      simpa [dictPop] using ih

lemma lookup_dictPop_ne (k k' : String) (d : Doc) (hne : k' ≠ k) :
    (dictPop k d).lookup k' = d.lookup k' := by
  induction d with
  | nil => rfl
  | cons p rest ih =>
    by_cases hp : p.1 = k
    · have hb : (p.1 == k) = true := beq_iff_eq.mpr hp
      have hk' : k' ≠ p.1 := fun h => hne (h.trans hp)
      rw [lookup_cons_if, if_neg hk']
      simpa [dictPop, List.filter_cons, hb] using ih
    · have hb : (p.1 == k) = false := beq_eq_false_iff_ne.mpr hp
      simp only [dictPop, List.filter_cons, hb, Bool.not_false, if_pos]
      rw [lookup_cons_if, lookup_cons_if]
      by_cases hk' : k' = p.1
      · rw [if_pos hk', if_pos hk']
      · rw [if_neg hk', if_neg hk']
        simpa [dictPop] using ih

lemma lookup_map_update_self (k : String) (v : Value) (d : Doc)
    (hmem : (d.lookup k).isSome) :
    (d.map (fun p => if p.1 == k then (k, v) else p)).lookup k = some v := by
  induction d with
  | nil => simp at hmem
  | cons p rest ih =>
    by_cases hp : p.1 = k
    · have hb : (p.1 == k) = true := beq_iff_eq.mpr hp
      simp only [List.map_cons, hb, if_pos]
      rw [lookup_cons_if, if_pos rfl]
    · have hb : (p.1 == k) = false := beq_eq_false_iff_ne.mpr hp
      have hk : k ≠ p.1 := fun h => hp h.symm
      simp only [List.map_cons, hb, Bool.false_eq_true, if_false]
      rw [lookup_cons_if, if_neg hk]
      refine ih ?_
      rw [lookup_cons_if, if_neg hk] at hmem
      exact hmem

lemma lookup_map_update_ne (k k' : String) (v : Value) (d : Doc) (hne : k' ≠ k) :
    (d.map (fun p => if p.1 == k then (k, v) else p)).lookup k' = d.lookup k' := by
  induction d with
  | nil => rfl
  | cons p rest ih =>
    by_cases hp : p.1 = k
    · have hb : (p.1 == k) = true := beq_iff_eq.mpr hp
      have hk' : k' ≠ p.1 := fun h => hne (h.trans hp)
      simp only [List.map_cons, hb, if_pos]
      rw [lookup_cons_if, lookup_cons_if, if_neg hne, if_neg hk']
      exact ih
    · have hb : (p.1 == k) = false := beq_eq_false_iff_ne.mpr hp
      simp only [List.map_cons, hb, Bool.false_eq_true, if_false]
      rw [lookup_cons_if, lookup_cons_if]
      by_cases hk' : k' = p.1
      · rw [if_pos hk', if_pos hk']
      · rw [if_neg hk', if_neg hk']
        exact ih

lemma lookup_append_single_self (k : String) (v : Value) (d : Doc)
    (hnone : d.lookup k = none) :
    (d ++ [(k, v)]).lookup k = some v := by
  induction d with
  | nil => simp [lookup_cons_if]
  | cons p rest ih =>
    rw [lookup_cons_if] at hnone
    by_cases hk : k = p.1
    · rw [if_pos hk] at hnone
      exact absurd hnone (by simp)
    · rw [if_neg hk] at hnone
      rw [List.cons_append, lookup_cons_if, if_neg hk]
      exact ih hnone

lemma lookup_append_single_ne (k k' : String) (v : Value) (d : Doc) (hne : k' ≠ k) :
    (d ++ [(k, v)]).lookup k' = d.lookup k' := by
  induction d with
  | nil => simp [lookup_cons_if, hne]
  | cons p rest ih =>
    rw [List.cons_append, lookup_cons_if, lookup_cons_if]
    by_cases hk' : k' = p.1
    · rw [if_pos hk', if_pos hk']
    · rw [if_neg hk', if_neg hk']
      exact ih

lemma lookup_dictSet_self (k : String) (v : Value) (d : Doc) :
    (dictSet k v d).lookup k = some v := by
  unfold dictSet
  by_cases hmem : (d.lookup k).isSome
  · rw [if_pos hmem]
    exact lookup_map_update_self k v d hmem
  · rw [if_neg hmem]
    exact lookup_append_single_self k v d (Option.not_isSome_iff_eq_none.mp hmem)

lemma lookup_dictSet_ne (k k' : String) (v : Value) (d : Doc) (hne : k' ≠ k) :
    (dictSet k v d).lookup k' = d.lookup k' := by
  unfold dictSet
  by_cases hmem : (d.lookup k).isSome
  · rw [if_pos hmem]
    exact lookup_map_update_ne k k' v d hne
  · rw [if_neg hmem]
    exact lookup_append_single_ne k k' v d hne

lemma dictSet_ne_nil (k : String) (v : Value) (d : Doc) : dictSet k v d ≠ [] := by
  unfold dictSet
  by_cases hmem : (d.lookup k).isSome
  · rw [if_pos hmem]
    intro h
    rw [List.map_eq_nil_iff] at h
    subst h
    simp at hmem
  · rw [if_neg hmem]
    simp

def oid0 : ObjectId := ⟨0, by norm_num⟩

/-- A stored document that already carries an `id` field besides `_id`. -/
def docIdClash : Doc := [("_id", Value.oid oid0), ("id", Value.str "x")]

/-- An ordinary stored document: an `_id` and one data field. -/
def docAlice : Doc := [("_id", Value.oid oid0), ("name", Value.str "Alice")]

/-- C2 counterexample: on a document that contains both `_id` and a
pre-existing `id` field, `serialize_doc` overwrites the `id` field, so the
key `id` — a key of `d` other than `_id` — is not mapped to the same value
as in `d`, refuting "maps every other key of d to the same value as d; no
other field is altered". -/
theorem serialize_doc_alters_existing_id_field :
    (docIdClash.lookup "_id").isSome = true ∧
    ("id" : String) ≠ "_id" ∧
    (serialize_doc docIdClash).lookup "id" ≠ docIdClash.lookup "id" := by
  decide

/-- C2 (amended): for every document `d` with `_id` entry `i`,
`serialize_doc d` has `id` mapped to `serialize_id i`, has no `_id` key, and
maps every key other than `_id` and `id` to the same value as `d` (a
pre-existing `id` field of `d` is overwritten); a document without an `_id`
key is returned unchanged. -/
theorem serialize_doc_output_spec (d : Doc) :
    (∀ i, d.lookup "_id" = some i →
      (serialize_doc d).lookup "id" = some (serialize_id i) ∧
      (serialize_doc d).lookup "_id" = none ∧
      ∀ k, k ≠ "_id" → k ≠ "id" → (serialize_doc d).lookup k = d.lookup k) ∧
    (d.lookup "_id" = none → serialize_doc d = d) := by
  constructor
  · intro i hi
    have hne : d.isEmpty = false := by
      cases d with
      | nil => simp at hi
      | cons p rest => rfl
    have hform : serialize_doc d = dictSet "id" (serialize_id i) (dictPop "_id" d) := by
      simp [serialize_doc, hne, hi]
    refine ⟨?_, ?_, ?_⟩
    · rw [hform, lookup_dictSet_self]
    · rw [hform, lookup_dictSet_ne _ _ _ _ (by decide), lookup_dictPop_self]
    · intro k hk1 hk2
      rw [hform, lookup_dictSet_ne _ _ _ _ hk2, lookup_dictPop_ne _ _ _ hk1]
  · intro hnone
    by_cases he : d.isEmpty <;> simp [serialize_doc, he, hnone]

theorem serialize_doc_output_spec_witness :
    docAlice.lookup "_id" = some (Value.oid oid0) ∧
    (serialize_doc docAlice).lookup "id" = some (serialize_id (Value.oid oid0)) ∧
    (serialize_doc docAlice).lookup "_id" = none ∧
    (serialize_doc docAlice).lookup "name" = docAlice.lookup "name" :=
  ⟨by decide,
   ((serialize_doc_output_spec docAlice).1 (Value.oid oid0) (by decide)).1,
   ((serialize_doc_output_spec docAlice).1 (Value.oid oid0) (by decide)).2.1,
   ((serialize_doc_output_spec docAlice).1 (Value.oid oid0) (by decide)).2.2
     "name" (by decide) (by decide)⟩

/-- C9: `serialize_doc` is idempotent — the first application removes the
`_id` key, so the second application leaves the document unchanged. -/
theorem serialize_doc_idempotent (d : Doc) :
    serialize_doc (serialize_doc d) = serialize_doc d := by
  by_cases he : d.isEmpty
  · simp [serialize_doc, he]
  · cases hid : d.lookup "_id" with
    | none => simp [serialize_doc, he, hid]
    | some i =>
      have hform : serialize_doc d = dictSet "id" (serialize_id i) (dictPop "_id" d) := by
        simp [serialize_doc, he, hid]
      rw [hform]
      have hne : (dictSet "id" (serialize_id i) (dictPop "_id" d)).isEmpty = false := by
        cases hh : dictSet "id" (serialize_id i) (dictPop "_id" d) with
        | nil => exact absurd hh (dictSet_ne_nil _ _ _)
        | cons a l => rfl
      have hnid : (dictSet "id" (serialize_id i) (dictPop "_id" d)).lookup "_id" = none := by
        rw [lookup_dictSet_ne _ _ _ _ (by decide)]
        exact lookup_dictPop_self _ _
      simp [serialize_doc, hne, hnid]

/-!
Health reporter. The `health` endpoint of `src/main.py` probes
`from database import db`, the connection object, and
`list_collection_names()`, and also reads two environment variables.
All outcomes of those effects are made explicit inputs of the model.
-/

/-- Python string slicing `s[:n]`: the first `n` characters. -/
def pyTake (s : String) (n : Nat) : String :=
  ⟨s.data.take n⟩

/-- The `db` connection object: its optional `name` attribute and the
outcome of calling `list_collection_names()` on it. -/
structure DbHandle where
  hasNameAttr : Bool
  nameAttr : String
  list_collection_names : Except String (List String)

/-- Outcome of `from database import db`: a module-level value (possibly
`None`), an `ImportError`, or some other exception raised during import. -/
inductive ImportOutcome where
  | ok (db : Option DbHandle)
  | importError
  | otherError (msg : String)

/-- Ambient state the health check reads: the import outcome and the
`DATABASE_URL` / `DATABASE_NAME` environment variables (`none` = unset). -/
structure Env where
  databaseImport : ImportOutcome
  databaseUrl : Option String
  databaseName : Option String

/-- Python truthiness of an `os.getenv` result: a set, non-empty string. -/
def envTruthy : Option String → Bool
  | some s => !s.isEmpty
  | none => false

/-- The JSON report assembled by `health()`; `database_url` and
`database_name` start out as Python `None`, hence `Option String`. -/
structure HealthReport where
  backend : String
  database : String
  database_url : Option String
  database_name : Option String
  connection_status : String
  collections : List String

/-- `health` of `src/main.py`: builds the base report, probes the
database-module import, the connection and `list_collection_names()` with
every exception
converted into a `database` status string, then unconditionally overwrites
`database_url` and `database_name` with the legacy env-var indicators. -/
def health (env : Env) : HealthReport :=
  let r0 : HealthReport :=
    { backend := "✅ Running"
      database := "❌ Not Available"
      database_url := none
      database_name := none
      connection_status := "Not Connected"
      collections := [] }
  let r1 :=
    match env.databaseImport with
    | .importError => { r0 with database := "❌ Database module not found" }
    | .otherError e => { r0 with database := "❌ Error: " ++ pyTake e 100 }
    | .ok none => { r0 with database := "⚠️  Available but not initialized" }
    | .ok (some db) =>
        let r :=
          { r0 with
            database := "✅ Available"
            database_url := some (if envTruthy env.databaseUrl then "✅ Set" else "❌ Not Set")
            database_name := if db.hasNameAttr then some db.nameAttr else env.databaseName }
        match db.list_collection_names with
        | .ok names =>
            { r with
              collections := names.take 10
              connection_status := "Connected"
              database := "✅ Connected & Working" }
        | .error e => { r with database := "⚠️  Connected but Error: " ++ pyTake e 100 }
  { r1 with
    database_url := some (if envTruthy env.databaseUrl then "✅ Set" else "❌ Not Set")
    database_name := some (if envTruthy env.databaseName then "✅ Set" else "❌ Not Set") }

/-- C4: `health` is a total function — every outcome of the import, of the
connection object and of `list_collection_names` yields a normally returned
report — and each failure path is captured as the corresponding descriptive
string in the report's `database` field. -/
theorem health_captures_every_failure (env : Env) :
    (env.databaseImport = .importError →
      (health env).database = "❌ Database module not found") ∧
    (∀ e, env.databaseImport = .otherError e →
      (health env).database = "❌ Error: " ++ pyTake e 100) ∧
    (env.databaseImport = .ok none →
      (health env).database = "⚠️  Available but not initialized") ∧
    (∀ db e, env.databaseImport = .ok (some db) →
      db.list_collection_names = .error e →
      (health env).database = "⚠️  Connected but Error: " ++ pyTake e 100) ∧
    (∀ db names, env.databaseImport = .ok (some db) →
      db.list_collection_names = .ok names →
      (health env).database = "✅ Connected & Working") := by
  refine ⟨?_, ?_, ?_, ?_, ?_⟩
  · intro h
    simp [health, h]
  · intro e h
    simp [health, h]
  · intro h
    simp [health, h]
  · intro db e h hl
    simp [health, h, hl]
  · intro db names h hl
    simp [health, h, hl]

theorem health_captures_every_failure_witness :
    (health ⟨ImportOutcome.importError, none, none⟩).database =
      "❌ Database module not found" :=
  (health_captures_every_failure ⟨ImportOutcome.importError, none, none⟩).1 rfl

/-- C7: when the connection is present and `list_collection_names` succeeds,
the report's `collections` field is the first at most 10 names in store
order and `database` reads connected-and-working; when it fails, `database`
is the connected-but-error status whose embedded message is the error text
truncated to at most 100 characters. -/
theorem health_connected_report (env : Env) (db : DbHandle)
    (h : env.databaseImport = .ok (some db)) :
    (∀ names, db.list_collection_names = .ok names →
      (health env).collections = names.take 10 ∧
      (health env).collections.length ≤ 10 ∧
      (health env).database = "✅ Connected & Working") ∧
    (∀ e, db.list_collection_names = .error e →
      (health env).database = "⚠️  Connected but Error: " ++ pyTake e 100 ∧
      (pyTake e 100).length ≤ 100) := by
  constructor
  · intro names hl
    refine ⟨?_, ?_, ?_⟩
    · simp [health, h, hl]
    · simp [health, h, hl, List.length_take]
    · simp [health, h, hl]
  · intro e hl
    refine ⟨?_, ?_⟩
    · simp [health, h, hl]
    · show (⟨e.data.take 100⟩ : String).length ≤ 100
      show (e.data.take 100).length ≤ 100
      rw [List.length_take]
      omega

def dbW : DbHandle := ⟨false, "", Except.ok ["users", "products"]⟩

def envW : Env := ⟨ImportOutcome.ok (some dbW), some "mongodb://host", some "app"⟩

theorem health_connected_report_witness :
    (health envW).collections = ["users", "products"] ∧
    (health envW).database = "✅ Connected & Working" :=
  ⟨(((health_connected_report envW dbW rfl).1 ["users", "products"] rfl).1).trans rfl,
   ((health_connected_report envW dbW rfl).1 ["users", "products"] rfl).2.2⟩

def envUrlEmpty : Env := ⟨ImportOutcome.importError, some "", none⟩

def envUrlSet : Env := ⟨ImportOutcome.importError, some "mongodb://host", none⟩

/-- C10 counterexample: two environments agreeing on whether `DATABASE_URL`
is set (both set: one to the empty string, one to a host) and on everything
else produce different `database_url` report fields, so the field is not
determined solely by whether the variable is set — the code tests Python
truthiness, which an empty-string value fails. -/
theorem health_url_setness_counterexample :
    envUrlEmpty.databaseUrl.isSome = envUrlSet.databaseUrl.isSome ∧
    envUrlEmpty.databaseName = envUrlSet.databaseName ∧
    envUrlEmpty.databaseImport = envUrlSet.databaseImport ∧
    (health envUrlEmpty).database_url = some "❌ Not Set" ∧
    (health envUrlSet).database_url = some "✅ Set" :=
  ⟨rfl, rfl, rfl, rfl, rfl⟩

/-- C10 (amended): the final `database_url` / `database_name` fields of every
health report are exactly one of the indicators `✅ Set` / `❌ Not Set`,
determined solely by whether the respective environment variable is set to a
non-empty string, independent of the import/connection outcome; in
particular the connection-derived name assigned earlier is always
overwritten. -/
theorem health_env_indicator_fields (env env' : Env)
    (hu : env.databaseUrl = env'.databaseUrl)
    (hn : env.databaseName = env'.databaseName) :
    (health env).database_url =
      some (if envTruthy env.databaseUrl then "✅ Set" else "❌ Not Set") ∧
    (health env).database_name =
      some (if envTruthy env.databaseName then "✅ Set" else "❌ Not Set") ∧
    (health env).database_url = (health env').database_url ∧
    (health env).database_name = (health env').database_name := by
  refine ⟨?_, ?_, ?_, ?_⟩ <;> simp [health, hu, hn]

theorem health_env_indicator_fields_witness :
    (health envW).database_url = some "✅ Set" ∧
    (health envW).database_name = some "✅ Set" := by
  have h := health_env_indicator_fields envW envW rfl rfl
  exact ⟨h.1.trans rfl, h.2.1.trans rfl⟩

/-!
Store gateway and request handlers. The gateway calls of `src/main.py`
(`get_documents`, `db.<coll>.find_one`) either return a value or raise
`PyMongoError`; both outcomes are explicit in the model.
-/

/-- Outcome of a store gateway call: a value, or a raised `PyMongoError`. -/
inductive DbResult (α : Type) where
  | ok (a : α)
  | storeError (msg : String)
  deriving DecidableEq

/-- The `get_documents(collection, filter, limit)` gateway with the fixed
empty filter, as the list endpoints call it. -/
def GatewayFn : Type := String → Int → DbResult (List Doc)

/-- The inline `min(max(limit, 1), 200)` of the list endpoints. -/
def clamped_limit (limit : Int) : Int :=
  min (max limit 1) 200

/-- Response of a list endpoint: a body, or `HTTPException(500)`. -/
inductive ListResponse where
  | ok (body : List Doc)
  | serverError (detail : String)
  deriving DecidableEq

/-- `list_users` of `src/main.py`: fetch at most the clamped limit of
documents from the `user` collection and serialize each; a `PyMongoError`
becomes a 500 response. -/
def list_users (get_documents : GatewayFn) (limit : Int) : ListResponse :=
  match get_documents "user" (clamped_limit limit) with
  | .ok docs => .ok (docs.map serialize_doc)
  | .storeError e => .serverError e

/-- `list_products` of `src/main.py`: same as `list_users` on `product`. -/
def list_products (get_documents : GatewayFn) (limit : Int) : ListResponse :=
  match get_documents "product" (clamped_limit limit) with
  | .ok docs => .ok (docs.map serialize_doc)
  | .storeError e => .serverError e

/-- C5: the limit passed to the store gateway by `GET /api/users` and
`GET /api/products` always lies in `[1, 200]`: values below 1 become 1,
values above 200 become 200, in-range values (in particular the default 50)
pass through, and the handlers' results depend only on the gateway's
behaviour at limits inside `[1, 200]`. -/
theorem list_limit_clamped (limit : Int) (g g' : GatewayFn)
    (h : ∀ c k, 1 ≤ k → k ≤ 200 → g c k = g' c k) :
    1 ≤ clamped_limit limit ∧ clamped_limit limit ≤ 200 ∧
    (limit < 1 → clamped_limit limit = 1) ∧
    (200 < limit → clamped_limit limit = 200) ∧
    (1 ≤ limit → limit ≤ 200 → clamped_limit limit = limit) ∧
    clamped_limit 50 = 50 ∧
    list_users g limit = list_users g' limit ∧
    list_products g limit = list_products g' limit := by
  have h1 : 1 ≤ clamped_limit limit := le_min (le_max_right _ _) (by norm_num)
  have h2 : clamped_limit limit ≤ 200 := min_le_right _ _
  refine ⟨h1, h2, ?_, ?_, ?_, ?_, ?_, ?_⟩
  · intro hl
    unfold clamped_limit
    rw [max_eq_right hl.le, min_eq_left (by norm_num)]
  · intro hl
    unfold clamped_limit
    rw [max_eq_left (by linarith), min_eq_right (by linarith)]
  · intro ha hb
    unfold clamped_limit
    rw [max_eq_left ha, min_eq_left hb]
  · unfold clamped_limit
    norm_num
  · unfold list_users
    rw [h "user" (clamped_limit limit) h1 h2]
  · unfold list_products
    rw [h "product" (clamped_limit limit) h1 h2]

def gW : GatewayFn := fun _ _ => DbResult.ok []

theorem list_limit_clamped_witness :
    1 ≤ clamped_limit 500 ∧ clamped_limit 500 ≤ 200 ∧ clamped_limit 500 = 200 := by
  have h := list_limit_clamped 500 gW gW (fun _ _ _ _ => rfl)
  exact ⟨h.1, h.2.1, h.2.2.2.1 (by norm_num)⟩

/-- State of one collection behind `db.<coll>.find_one`: reachable with its
documents, or raising `PyMongoError` on access. -/
inductive CollState where
  | avail (docs : List Doc)
  | failing (msg : String)

/-- `find_one({"_id": i})`: the first document whose `_id` equals `i`. -/
def find_one (c : CollState) (i : ObjectId) : DbResult (Option Doc) :=
  match c with
  | .avail docs => .ok (docs.find? (fun d => decide (d.lookup "_id" = some (Value.oid i))))
  | .failing m => .storeError m

/-- Response of a get-by-id endpoint: a 200 body, or an `HTTPException`. -/
inductive HandlerResult where
  | response (status : Nat) (body : Doc)
  | httpError (status : Nat) (detail : String)
  deriving DecidableEq

/-- `get_user` of `src/main.py`: 400 on a malformed id (raised before the
lookup and not caught by `except PyMongoError`), 500 on `PyMongoError`,
404 on a falsy (missing or empty) document, else 200 with the serialized
document. -/
def get_user (c : CollState) (user_id : String) : HandlerResult :=
  if is_valid user_id then
    match find_one c (oidOfString user_id) with
    | .storeError m => .httpError 500 m
    | .ok none => .httpError 404 "User not found"
    | .ok (some doc) =>
        if doc.isEmpty then .httpError 404 "User not found"
        else .response 200 (serialize_doc doc)
  else .httpError 400 "Invalid user id"

/-- `get_product` of `src/main.py`: identical to `get_user` on `product`. -/
def get_product (c : CollState) (product_id : String) : HandlerResult :=
  if is_valid product_id then
    match find_one c (oidOfString product_id) with
    | .storeError m => .httpError 500 m
    | .ok none => .httpError 404 "Product not found"
    | .ok (some doc) =>
        if doc.isEmpty then .httpError 404 "Product not found"
        else .response 200 (serialize_doc doc)
  else .httpError 400 "Invalid product id"

/-- C6: for `GET /api/users/{id}` and `GET /api/products/{id}`: an invalid
id string yields status 400; a valid id with no matching document in the
collection yields 404; a store failure yields 500; otherwise status 200
with `serialize_doc` of the found document. -/
theorem get_by_id_status_codes (c : CollState) (s : String) :
    (is_valid s = false →
      get_user c s = .httpError 400 "Invalid user id" ∧
      get_product c s = .httpError 400 "Invalid product id") ∧
    (∀ m, is_valid s = true → c = .failing m →
      get_user c s = .httpError 500 m ∧
      get_product c s = .httpError 500 m) ∧
    (∀ docs, is_valid s = true → c = .avail docs →
      ((∀ d ∈ docs, d.lookup "_id" ≠ some (Value.oid (oidOfString s))) →
        get_user c s = .httpError 404 "User not found" ∧
        get_product c s = .httpError 404 "Product not found") ∧
      (∀ doc,
        docs.find? (fun d => decide (d.lookup "_id" = some (Value.oid (oidOfString s)))) = some doc →
        get_user c s = .response 200 (serialize_doc doc) ∧
        get_product c s = .response 200 (serialize_doc doc))) := by
  refine ⟨?_, ?_, ?_⟩
  · intro hv
    exact ⟨by simp [get_user, hv], by simp [get_product, hv]⟩
  · intro m hv hc
    subst hc
    exact ⟨by simp [get_user, hv, find_one], by simp [get_product, hv, find_one]⟩
  · intro docs hv hc
    subst hc
    constructor
    · intro hnone
      have hfind :
          docs.find? (fun d => decide (d.lookup "_id" = some (Value.oid (oidOfString s)))) = none := by
        rw [List.find?_eq_none]
        intro d hd
        simpa using hnone d hd
      exact ⟨by simp [get_user, hv, find_one, hfind],
             by simp [get_product, hv, find_one, hfind]⟩
    · intro doc hfind
      have hlk : doc.lookup "_id" = some (Value.oid (oidOfString s)) := by
        have h1 := List.find?_some hfind
        simpa using h1
      have hne : doc.isEmpty = false := by
        cases doc with
        | nil => simp at hlk
        | cons a l => rfl
      exact ⟨by simp [get_user, hv, find_one, hfind, hne],
             by simp [get_product, hv, find_one, hfind, hne]⟩

theorem get_by_id_status_codes_witness :
    get_user (CollState.avail [docAlice]) (oidToString oid0) =
      HandlerResult.response 200 (serialize_doc docAlice) :=
  (((get_by_id_status_codes (CollState.avail [docAlice]) (oidToString oid0)).2.2
      [docAlice] (by decide) rfl).2 docAlice (by decide)).1

/-!
Schema reporter. `get_schema` of `src/main.py` iterates the members of the
`schemas` module via `inspect.getmembers`, keeps the classes that are
proper `BaseModel` subclasses (excluding `BaseModel` itself), and builds a
per-class entry. A module member is modelled by its name together with what
the `inspect` test sees: the shared base class, a record (model) class with
its field metadata, or anything else.
-/

/-- A pydantic model field as `model_fields` exposes it: its name, the
printed annotation, and whether `is_required()` holds. -/
structure ModelField where
  fieldName : String
  typeRepr : String
  isRequired : Bool
  deriving DecidableEq

/-- What the `inspect.isclass`/`issubclass` test sees of a module member. -/
inductive MemberKind where
  | baseModelClass
  | modelClass (fields : List ModelField)
  | nonModel
  deriving DecidableEq

/-- A member of the `schemas` module: a name bound to a kind of object. -/
structure ModuleMember where
  memberName : String
  kind : MemberKind
  deriving DecidableEq

/-- One value of the schema map built by `get_schema`. -/
structure SchemaEntry where
  collection : String
  fields : List (String × String)
  required : List String
  deriving DecidableEq

/-- Python `str.lower()` (ASCII, as the class names here are). -/
def pyLower (s : String) : String :=
  ⟨s.data.map Char.toLower⟩

/-- The entry `get_schema` builds for a model class `nm` with fields `fs`. -/
def schemaEntryOf (nm : String) (fs : List ModelField) : SchemaEntry :=
  { collection := pyLower nm
    fields := fs.map (fun f => (f.fieldName, f.typeRepr))
    required := (fs.filter (fun f => f.isRequired)).map (fun f => f.fieldName) }

/-- `get_schema` of `src/main.py` over the members of the schemas module. -/
def get_schema (members : List ModuleMember) : List (String × SchemaEntry) :=
  members.filterMap (fun m =>
    match m.kind with
    | .modelClass fs => some (m.memberName, schemaEntryOf m.memberName fs)
    | _ => none)

lemma get_schema_cons_model (m : ModuleMember) (rest : List ModuleMember)
    (fs : List ModelField) (hk : m.kind = .modelClass fs) :
    get_schema (m :: rest) =
      (m.memberName, schemaEntryOf m.memberName fs) :: get_schema rest := by
  simp [get_schema, List.filterMap_cons, hk]

lemma get_schema_cons_skip (m : ModuleMember) (rest : List ModuleMember)
    (hk : ∀ fs, m.kind ≠ .modelClass fs) :
    get_schema (m :: rest) = get_schema rest := by
  cases hkind : m.kind with
  | baseModelClass => simp [get_schema, List.filterMap_cons, hkind]
  | modelClass fs => exact absurd hkind (hk fs)
  | nonModel => simp [get_schema, List.filterMap_cons, hkind]

lemma get_schema_mem (members : List ModuleMember) (p : String × SchemaEntry) :
    p ∈ get_schema members ↔
      ∃ m ∈ members, ∃ fs, m.kind = .modelClass fs ∧
        p = (m.memberName, schemaEntryOf m.memberName fs) := by
  simp only [get_schema, List.mem_filterMap]
  constructor
  · rintro ⟨m, hm, hf⟩
    cases hkind : m.kind with
    | modelClass fs =>
      rw [hkind] at hf
      exact ⟨m, hm, fs, hkind, (Option.some.inj hf).symm⟩
    | baseModelClass =>
      rw [hkind] at hf
      cases hf
    | nonModel =>
      rw [hkind] at hf
      cases hf
  · rintro ⟨m, hm, fs, hkind, rfl⟩
    exact ⟨m, hm, by rw [hkind]⟩

lemma get_schema_key_mem_names (members : List ModuleMember) (k : String)
    (hk : k ∈ (get_schema members).map Prod.fst) :
    k ∈ members.map ModuleMember.memberName := by
  rcases List.mem_map.mp hk with ⟨p, hp, hpk⟩
  rcases (get_schema_mem members p).mp hp with ⟨m, hm, fs, hkind, hpe⟩
  have : p.1 = m.memberName := by rw [hpe]
  rw [← hpk, this]
  exact List.mem_map_of_mem _ hm

lemma get_schema_lookup_notmem (members : List ModuleMember) (k : String) :
    k ∉ members.map ModuleMember.memberName →
    (get_schema members).lookup k = none := by
  induction members with
  | nil => intro _; rfl
  | cons m0 rest ih =>
    intro hk
    have hk0 : k ≠ m0.memberName := by
      intro h
      exact hk (by simp [h])
    have hkrest : k ∉ rest.map ModuleMember.memberName := by
      intro h
      exact hk (by simp [h])
    cases hkind : m0.kind with
    | modelClass fs =>
      rw [get_schema_cons_model m0 rest fs hkind, lookup_cons_if, if_neg hk0]
      exact ih hkrest
    | baseModelClass =>
      rw [get_schema_cons_skip m0 rest (by simp [hkind])]
      exact ih hkrest
    | nonModel =>
      rw [get_schema_cons_skip m0 rest (by simp [hkind])]
      exact ih hkrest

lemma get_schema_lookup_model (members : List ModuleMember) :
    (members.map ModuleMember.memberName).Nodup →
    ∀ m ∈ members, ∀ fs, m.kind = .modelClass fs →
      (get_schema members).lookup m.memberName =
        some (schemaEntryOf m.memberName fs) := by
  induction members with
  | nil =>
    intro _ m hm
    cases hm
  | cons m0 rest ih =>
    intro hnd m hm fs hk
    rw [List.map_cons, List.nodup_cons] at hnd
    rcases List.mem_cons.mp hm with heq | hmem
    · subst heq
      rw [get_schema_cons_model m rest fs hk, lookup_cons_if, if_pos rfl]
    · have hne : m.memberName ≠ m0.memberName := by
        intro h
        exact hnd.1 (by rw [← h]; exact List.mem_map_of_mem _ hmem)
      cases hkind : m0.kind with
      | modelClass fs0 =>
        rw [get_schema_cons_model m0 rest fs0 hkind, lookup_cons_if, if_neg hne]
        exact ih hnd.2 m hmem fs hk
      | baseModelClass =>
        rw [get_schema_cons_skip m0 rest (by simp [hkind])]
        exact ih hnd.2 m hmem fs hk
      | nonModel =>
        rw [get_schema_cons_skip m0 rest (by simp [hkind])]
        exact ih hnd.2 m hmem fs hk

lemma get_schema_keys_nodup (members : List ModuleMember) :
    (members.map ModuleMember.memberName).Nodup →
    ((get_schema members).map Prod.fst).Nodup := by
  induction members with
  | nil => intro _; simp [get_schema]
  | cons m0 rest ih =>
    intro hnd
    rw [List.map_cons, List.nodup_cons] at hnd
    cases hkind : m0.kind with
    | modelClass fs =>
      rw [get_schema_cons_model m0 rest fs hkind, List.map_cons, List.nodup_cons]
      refine ⟨?_, ih hnd.2⟩
      intro hmem
      exact hnd.1 (get_schema_key_mem_names rest m0.memberName hmem)
    | baseModelClass =>
      rw [get_schema_cons_skip m0 rest (by simp [hkind])]
      exact ih hnd.2
    | nonModel =>
      rw [get_schema_cons_skip m0 rest (by simp [hkind])]
      exact ih hnd.2

/-- C8: given distinct member names, the schema report has distinct keys,
contains for every record type (proper model class) exactly one entry — its
`collection` the lowercased type name, its `fields` the per-field type
descriptors, its `required` exactly the required field names —, contains no
entry for the shared base type, and contains nothing but the record types'
entries. -/
theorem get_schema_spec (members : List ModuleMember)
    (hnd : (members.map ModuleMember.memberName).Nodup) :
    ((get_schema members).map Prod.fst).Nodup ∧
    (∀ m ∈ members, ∀ fs, m.kind = .modelClass fs →
      (get_schema members).lookup m.memberName =
        some { collection := pyLower m.memberName
               fields := fs.map (fun f => (f.fieldName, f.typeRepr))
               required := (fs.filter (fun f => f.isRequired)).map (fun f => f.fieldName) }) ∧
    (∀ m ∈ members, m.kind = .baseModelClass →
      (get_schema members).lookup m.memberName = none) ∧
    (∀ p ∈ get_schema members,
      ∃ m ∈ members, ∃ fs, m.kind = .modelClass fs ∧
        p = (m.memberName, schemaEntryOf m.memberName fs)) := by
  refine ⟨get_schema_keys_nodup members hnd, ?_, ?_, ?_⟩
  · intro m hm fs hk
    exact get_schema_lookup_model members hnd m hm fs hk
  · intro m hm hk
    induction members with
    | nil => cases hm
    | cons m0 rest ih =>
      rw [List.map_cons, List.nodup_cons] at hnd
      rcases List.mem_cons.mp hm with heq | hmem
      · subst heq
        rw [get_schema_cons_skip m rest (by simp [hk])]
        exact get_schema_lookup_notmem rest m.memberName hnd.1
      · have hne : m.memberName ≠ m0.memberName := by
          intro h
          exact hnd.1 (by rw [← h]; exact List.mem_map_of_mem _ hmem)
        cases hkind : m0.kind with
        | modelClass fs0 =>
          rw [get_schema_cons_model m0 rest fs0 hkind, lookup_cons_if, if_neg hne]
          exact ih hnd.2 hmem
        | baseModelClass =>
          rw [get_schema_cons_skip m0 rest (by simp [hkind])]
          exact ih hnd.2 hmem
        | nonModel =>
          rw [get_schema_cons_skip m0 rest (by simp [hkind])]
          exact ih hnd.2 hmem
  · intro p hp
    exact (get_schema_mem members p).mp hp

/-- The schemas module as the spec describes it: the imported shared base
plus the `User` and `Product` record types. -/
def schemasModuleW : List ModuleMember :=
  [⟨"BaseModel", MemberKind.baseModelClass⟩,
   ⟨"Product", MemberKind.modelClass [⟨"name", "str", true⟩, ⟨"price", "float", true⟩]⟩,
   ⟨"User", MemberKind.modelClass [⟨"name", "str", true⟩, ⟨"email", "str", true⟩]⟩]

theorem get_schema_spec_witness :
    (get_schema schemasModuleW).lookup "User" =
      some { collection := "user"
             fields := [("name", "str"), ("email", "str")]
             required := ["name", "email"] } := by
  have h := (get_schema_spec schemasModuleW (by decide)).2.1
    ⟨"User", MemberKind.modelClass [⟨"name", "str", true⟩, ⟨"email", "str", true⟩]⟩
    (by decide) [⟨"name", "str", true⟩, ⟨"email", "str", true⟩] rfl
  exact h.trans (by decide)
